import Mathlib

/-!
Verification of the `juv` CLI (a thin wrapper around the `uv` package manager
for ephemeral Jupyter notebooks) against its natural-language specification.

The development shallowly embeds the two source modules:

* `src/juv/_init.py`   — notebook initialization helpers
  (`get_first_non_conflicting_untitled_ipynb`, `new_notebook_with_inline_metadata`, `init`);
* `src/juv/__init__.py` — CLI layer
  (`assert_uv_available`, the `init` command, `upgrade_legacy_jupyter_command`, `main`).

Modelling conventions:

* The working directory's filesystem is a flat association list from file
  names to file contents (`FS`); `Path.exists()` becomes a lookup, writing a
  file replaces any previous entry, directories are not modelled because the
  program only ever touches files in one directory.
* Calls to the external `uv` binary are parameters of the embedding: the
  content `uv init --script` leaves in the scratch file is the parameter
  `uvResult` (`none` models an exception raised while invoking the tool,
  `some stub` models the tool having run — with any exit status — leaving
  `stub` in the file), and the dependency-add transformation performed by
  `uv` during `add` is the parameter `addT`.
* `sys.exit(1)`, an uncaught `ValueError`, and a propagating subprocess
  exception are the distinct outcomes of `InitOutcome`.
* Observable effects (stderr lines, the notebook write, the `add` call, the
  final confirmation print) are recorded, in order, as an `Event` trace.
-/

namespace Juv

/-- A notebook cell: a tag (`"code"` / `"markdown"`), its source text and the
rendering-visibility flag. Modelled from the spec: the cell data model of
`_nbconvert.py` (not among the provided sources) — "a tagged variant
{code, markdown}, carrying an ordered sequence of source text lines and a
rendering-visibility flag". -/
structure Cell where
  cell_type : String
  source : String
  hidden : Bool
deriving DecidableEq

/-- A notebook: a format-version stamp plus an ordered sequence of cells.
Modelled from the spec: the notebook data model of `_nbconvert.py` (not among
the provided sources) — "an ordered sequence of cells plus a format-version
stamp". -/
structure Notebook where
  nbformat : Nat
  cells : List Cell
deriving DecidableEq

/-- Modelled from the spec: `code_cell` of `_nbconvert.py` (not among the
provided sources) builds a code cell holding the given source verbatim, with
the given visibility flag. -/
def code_cell (source : String) (hidden : Bool) : Cell :=
  ⟨"code", source, hidden⟩

/-- Modelled from the spec: `new_notebook` of `_nbconvert.py` (not among the
provided sources) wraps a cell list into a fresh notebook document (format
version 4). -/
def new_notebook (cells : List Cell) : Notebook :=
  ⟨4, cells⟩

/-- Contents of a file in the modelled directory: plain text (the scratch
`.py` script) or a serialized notebook document. -/
inductive FileContent where
  | text (s : String)
  | notebook (nb : Notebook)
deriving DecidableEq

/-- The flat filesystem of the working directory: an association list from
file names to contents. -/
abbrev FS : Type := List (String × FileContent)

/-- Lookup, modelling `Path.exists` and file reads: first binding wins. -/
def FS.lookup : FS → String → Option FileContent
  | [], _ => none
  | (k, v) :: fs, name => if k = name then some v else FS.lookup fs name

/-- Remove a file (used for the scratch file released by the
`tempfile.NamedTemporaryFile(delete=True)` context manager). -/
def FS.remove (fs : FS) (name : String) : FS :=
  List.filter (fun kv => kv.1 != name) fs

/-- Write a file, replacing any previous content at that name. -/
def FS.write (fs : FS) (name : String) (c : FileContent) : FS :=
  (name, c) :: FS.remove fs name

/-- Read a text file's content (empty string when absent — the scratch file
is always present when read). -/
def FS.readText (fs : FS) (name : String) : String :=
  match FS.lookup fs name with
  | some (.text s) => s
  | _ => ""

/-- Models Python `str.strip()`: drop leading and trailing whitespace. -/
def pyStrip (s : String) : String :=
  ⟨((s.data.dropWhile Char.isWhitespace).reverse.dropWhile Char.isWhitespace).reverse⟩

/-- Models `pathlib.PurePath.suffix` for a bare file name `name`:
`i = name.rfind(c46)`; the suffix is `name[i:]` when `0 < i < len(name) - 1`
and empty otherwise. `lastDotIdx` is the `rfind` part: the index of the last
dot, if any. -/
def lastDotIdx : List Char → Option Nat
  | [] => none
  | c :: cs =>
    match lastDotIdx cs with
    | some i => some (i + 1)
    | none => if c = '.' then some 0 else none

/-- Models Python `Path(name).suffix` (see `lastDotIdx`). -/
def pathSuffix (name : String) : String :=
  match lastDotIdx name.data with
  | none => ""
  | some i => if 0 < i ∧ i < name.data.length - 1 then ⟨name.data.drop i⟩ else ""

/-- The file name `Untitled{i}.ipynb` probed by the resolver's loop. -/
def untitledName (i : Nat) : String :=
  "Untitled" ++ toString i ++ ".ipynb"

/-- Embeds `get_first_non_conflicting_untitled_ipynb` from `_init.py`, with the
directory's `Path.exists` check abstracted as the `fileExists` predicate:
return `Untitled.ipynb` if it is free, otherwise the first free
`Untitled{i}.ipynb` for `i` in `range(1, 100)`; `none` models the
`raise ValueError` when every candidate exists. -/
def get_first_non_conflicting_untitled_ipynb (fileExists : String → Bool) : Option String :=
  let base_path := "Untitled.ipynb"
  if !fileExists base_path then some base_path
  else
    match (List.range' 1 99).find? (fun i => !fileExists (untitledName i)) with
    | some i => some (untitledName i)
    | none => none

/-- The full candidate sequence, in the order the source probes it:
`Untitled.ipynb` first, then `Untitled1.ipynb` … `Untitled99.ipynb`. -/
def untitledCandidates : List String :=
  "Untitled.ipynb" :: (List.range' 1 99).map untitledName

/-- The resolver as the spec phrases it: the first candidate, in probe order,
that does not already exist. -/
def resolverSpec (fileExists : String → Bool) : Option String :=
  untitledCandidates.find? (fun c => !fileExists c)

/-- The directory "containing exactly `Untitled.ipynb` through
`Untitled{k}.ipynb`" used by the spec's testable property. -/
def untitledDir (k : Nat) : List String :=
  "Untitled.ipynb" :: (List.range' 1 k).map untitledName

/-- Observable effects of an `init` invocation, in the order they happen. -/
inductive Event where
  | stderrLine (s : String)
  | wroteNotebook (path : String) (nb : Notebook)
  | addedPackages (path : Option String) (packages : List String)
  | printedConfirmation (path : String)
deriving DecidableEq

/-- How an `init` invocation terminates: normal return, `sys.exit(1)` from
the extension check, the uncaught `ValueError` of the exhausted resolver, or
a propagating exception from the external-tool invocation. -/
inductive InitOutcome where
  | done
  | exitUsage
  | valueError
  | toolError
deriving DecidableEq

/-- Final filesystem, ordered event trace, and termination mode of an
invocation. -/
structure InitState where
  fs : FS
  events : List Event
  outcome : InitOutcome
deriving DecidableEq

/-- Embeds `new_notebook_with_inline_metadata` from `_init.py`.

`scratch` is the fresh name `tempfile.NamedTemporaryFile` picks inside the
target directory; the `with` block creates the (initially empty) scratch
file and deletes it on every exit path. `uvResult` abstracts the
`subprocess.run(["uv", "init", "--quiet", ...])` call: `some stub` means the
subprocess call returned (with any exit status) leaving `stub` in the
scratch file, `none` means an exception was raised while invoking the tool
(in which case it propagates, but the context manager still deletes the
scratch file). On return the scratch content is read back, stripped
(`f.read().strip()`), and wrapped as the single hidden code cell of a new
notebook. `python` is only forwarded to the external tool (as `--python`),
whose response is already abstracted by `uvResult`, so the model does not
consume it. -/
def new_notebook_with_inline_metadata (fs : FS) (scratch : String)
    (uvResult : Option String) (_python : Option String) :
    Except Unit Notebook × FS :=
  let fs1 := FS.write fs scratch (.text "")
  match uvResult with
  | none => (.error (), FS.remove fs1 scratch)
  | some stub =>
    let fs2 := FS.write fs1 scratch (.text stub)
    let contents := pyStrip (FS.readText fs2 scratch)
    let notebook := new_notebook [code_cell contents true]
    (.ok notebook, FS.remove fs2 scratch)

/-- Modelled from the spec: `write_ipynb` of `_nbconvert.py` (not among the
provided sources) serializes the notebook document and writes it to the
path, "overwriting any existing file at that path without confirmation". -/
def write_ipynb (nb : Notebook) (path : String) (fs : FS) : FS :=
  FS.write fs path (.notebook nb)

/-- Modelled from the spec: `add` of `_add.py` (not among the provided
sources) invokes the external package manager's dependency-add operation
against the notebook's embedded metadata block and rewrites the file; the
transformation the external tool performs is the parameter `addT`. The spec
gives no behavior for a missing (`None`) path or a nonexistent file, so in
those cases the model records the invocation and leaves the filesystem
unchanged. -/
def add (fs : FS) (path : Option String) (packages : List String)
    (addT : Notebook → List String → Notebook) : FS × List Event :=
  match path with
  | none => (fs, [.addedPackages none packages])
  | some p =>
    match FS.lookup fs p with
    | some (.notebook nb) =>
      (FS.write fs p (.notebook (addT nb packages)), [.addedPackages (some p) packages])
    | _ => (fs, [.addedPackages (some p) packages])

/-- The stderr message of the extension check in `_init.init`. -/
def extensionErrorMsg : String :=
  "File must have a `[cyan].ipynb[/cyan]` extension."

/-- The body of `_init.init` from the extension check onward, once `path`
holds the resolved target: validate the `.ipynb` extension (printing to
stderr and `sys.exit(1)` otherwise), build the notebook via
`new_notebook_with_inline_metadata`, persist it with `write_ipynb`, run
`add` when `packages` is nonempty, and finally print the confirmation
message with the resolved path. -/
def initResolved (fs : FS) (scratch : String) (uvResult : Option String)
    (path : String) (python : Option String) (packages : List String)
    (addT : Notebook → List String → Notebook) : InitState :=
  if pathSuffix path ≠ ".ipynb" then
    ⟨fs, [.stderrLine extensionErrorMsg], .exitUsage⟩
  else
    match new_notebook_with_inline_metadata fs scratch uvResult python with
    | (.error _, fs1) => ⟨fs1, [], .toolError⟩
    | (.ok nb, fs1) =>
      let fs2 := write_ipynb nb path fs1
      let step :=
        if packages ≠ [] then add fs2 (some path) packages addT else (fs2, [])
      ⟨step.1, .wroteNotebook path nb :: (step.2 ++ [.printedConfirmation path]), .done⟩

/-- Embeds `init` from `_init.py`: when no path is given, run the Untitled
probe over the working directory (its `ValueError` propagates uncaught when
every candidate is taken), then continue with `initResolved`. -/
def init (fs : FS) (scratch : String) (uvResult : Option String)
    (path? : Option String) (python : Option String) (packages : List String)
    (addT : Notebook → List String → Notebook) : InitState :=
  match path? with
  | some path => initResolved fs scratch uvResult path python packages addT
  | none =>
    match get_first_non_conflicting_untitled_ipynb (fun n => (FS.lookup fs n).isSome) with
    | none => ⟨fs, [], .valueError⟩
    | some path => initResolved fs scratch uvResult path python packages addT

/-- Embeds the `init` CLI command from `__init__.py`: `path` is
`Path(file) if file else None`; it calls `_init.init(path=path,
python=python)` — crucially without forwarding the `--with` packages — and
then, when `--with` arguments were given, calls `add(path=path, ...)` itself
with its own (unresolved) `path` variable. Exceptions and `sys.exit` from
the inner call propagate. -/
def cli_init (fs : FS) (scratch : String) (uvResult : Option String)
    (file : Option String) (python : Option String) (with_args : List String)
    (addT : Notebook → List String → Notebook) : InitState :=
  let path := file
  let st := init fs scratch uvResult path python [] addT
  match st.outcome with
  | .done =>
    if with_args ≠ [] then
      let step := add st.fs path with_args addT
      ⟨step.1, st.events ++ step.2, .done⟩
    else st
  | _ => st

/-- Character-list prefix test on strings, modelling Python
`str.startswith`. -/
def pyStartsWithAux : List Char → List Char → Bool
  | _, [] => true
  | [], _ :: _ => false
  | a :: as, b :: bs => a == b && pyStartsWithAux as bs

/-- Models Python `s.startswith(pre)`. -/
def pyStartsWith (s pre : String) : Bool :=
  pyStartsWithAux s.data pre.data

/-- The test `arg.startswith(("lab", "notebook", "nbclassic"))` from
`upgrade_legacy_jupyter_command`. -/
def isLegacyArg (arg : String) : Bool :=
  pyStartsWith arg "lab" || pyStartsWith arg "notebook" || pyStartsWith arg "nbclassic"

/-- The full rewrite condition of `upgrade_legacy_jupyter_command` for the
argument at a non-zero index, given the argument immediately before it. -/
def legacyRewriteCond (prev arg : String) : Bool :=
  isLegacyArg arg && !pyStartsWith prev "--" && !pyStartsWith arg "--"

/-- Loop body of `upgrade_legacy_jupyter_command`, processing the arguments
after index 0. The Python loop mutates `args` in place and reads
`args[i - 1]` from the live list, so `prev` carries the current (possibly
already rewritten) value at the previous index; `env` is the last value
stored into `os.environ["JUV_JUPYTER"]`, `none` if the variable was never
assigned by the loop. -/
def upgradeGo : String → List String → Option String → List String × Option String
  | _, [], env => ([], env)
  | prev, arg :: rest, env =>
    if legacyRewriteCond prev arg then
      let r := upgradeGo "run" rest (some arg)
      ("run" :: r.1, r.2)
    else
      let r := upgradeGo arg rest env
      (arg :: r.1, r.2)

/-- Embeds `upgrade_legacy_jupyter_command` from `__init__.py`: returns the
rewritten argv together with the final value this call assigned to
`JUV_JUPYTER` (if any). Index 0 is always skipped (`if i == 0: continue`). -/
def upgrade_legacy_jupyter_command (args : List String) : List String × Option String :=
  match args with
  | [] => ([], none)
  | a0 :: rest =>
    let r := upgradeGo a0 rest none
    (a0 :: r.1, r.2)

/-- The rewrite described over the ORIGINAL argv: each argument after index 0
is replaced by `"run"` exactly when `legacyRewriteCond` holds of it and of
the original argument before it. Stated from the claim's wording, to be
compared with `upgrade_legacy_jupyter_command`. -/
def rewriteSpecTail : String → List String → List String
  | _, [] => []
  | prev, arg :: rest =>
    (if legacyRewriteCond prev arg then "run" else arg) :: rewriteSpecTail arg rest

/-- The environment-variable effect over the ORIGINAL argv: `JUV_JUPYTER`
ends up holding the original text of the last rewritten argument. -/
def envSpecTail : String → List String → Option String → Option String
  | _, [], env => env
  | prev, arg :: rest, env =>
    envSpecTail arg rest (if legacyRewriteCond prev arg then some arg else env)

/-- The whole legacy rewrite phrased over the original argv. -/
def upgradeSpec (args : List String) : List String × Option String :=
  match args with
  | [] => ([], none)
  | a0 :: rest => (a0 :: rewriteSpecTail a0 rest, envSpecTail a0 rest none)

/-- The deprecated frontend names listed by the claim. -/
def deprecatedNames : List String :=
  ["lab", "notebook", "nbclassic"]

/-- The claim's notion "the argument at index `i` was altered by the
rewrite". -/
def rewrittenAt (args : List String) (i : Nat) : Prop :=
  (upgrade_legacy_jupyter_command args).1.getD i "" ≠ args.getD i ""

instance (args : List String) (i : Nat) : Decidable (rewrittenAt args i) := by
  unfold rewrittenAt
  infer_instance

/-- The three remediation lines `assert_uv_available` prints to stderr. -/
def uvErrorLines : List String :=
  ["Error: 'uv' command not found.",
   "Please install 'uv' to run `juv`.",
   "For more information, visit: https://github.com/astral-sh/uv"]

/-- Embeds `assert_uv_available` from `__init__.py`: when `uv` is not on the
PATH (`shutil.which("uv") is None`), print the remediation lines to stderr
and `sys.exit(1)` (modelled as `none`); otherwise return normally. -/
def assert_uv_available (uvOnPath : Bool) : Option Unit × List String :=
  if uvOnPath then (some (), [])
  else (none, uvErrorLines)

/-- The top-level calls an entry into `main` can perform. -/
inductive TopCall where
  | legacyUpgrade
  | cliDispatch
  | uvCheck
deriving DecidableEq

/-- Embeds the body of `main` from `__init__.py`, which is exactly the two
statements `upgrade_legacy_jupyter_command(sys.argv)` followed by `cli()` —
in particular it contains no call to `assert_uv_available`. -/
def mainCalls : List TopCall :=
  [.legacyUpgrade, .cliDispatch]

/-- Recognizes the confirmation-print event. -/
def eventIsConfirmation : Event → Bool
  | .printedConfirmation _ => true
  | _ => false

/-- Recognizes the package-add event. -/
def eventIsAdd : Event → Bool
  | .addedPackages _ _ => true
  | _ => false

/-- Whether, in an event trace holding both a confirmation print and a
package-add, the confirmation comes strictly after the add (vacuously true
when either is absent). -/
def confirmationAfterAddB (evs : List Event) : Bool :=
  match evs.findIdx? eventIsConfirmation, evs.findIdx? eventIsAdd with
  | some ci, some ai => decide (ai < ci)
  | _, _ => true

/-! Section: Filesystem lemmas -/

theorem FS.lookup_write_self (fs : FS) (s : String) (c : FileContent) :
    FS.lookup (FS.write fs s c) s = some c := by
  simp [FS.write, FS.lookup]

theorem FS.remove_idem (fs : FS) (s : String) :
    FS.remove (FS.remove fs s) s = FS.remove fs s := by
  simp [FS.remove, List.filter_filter]

theorem FS.remove_write (fs : FS) (s : String) (c : FileContent) :
    FS.remove (FS.write fs s c) s = FS.remove fs s := by
  have h : ((s, c).1 != s) = false := by simp
  simp only [FS.write, FS.remove, List.filter_cons, h]
  exact FS.remove_idem fs s

theorem FS.remove_eq_self {fs : FS} {s : String} (h : FS.lookup fs s = none) :
    FS.remove fs s = fs := by
  induction fs with
  | nil => rfl
  | cons kv t ih =>
    obtain ⟨k, v⟩ := kv
    by_cases hk : k = s
    · simp [FS.lookup, hk] at h
    · simp only [FS.lookup, if_neg hk] at h
      have hp : ((k, v).1 != s) = true := by simpa using hk
      simp only [FS.remove, List.filter_cons, hp, if_true]
      exact congrArg (List.cons (k, v)) (ih h)

theorem FS.readText_write_text (fs : FS) (s t : String) :
    FS.readText (FS.write fs s (.text t)) s = t := by
  simp [FS.readText, FS.lookup_write_self]

/-! Section: C8 — scratch-file cleanup on every exit path -/

/-- C8: on every exit path of `new_notebook_with_inline_metadata` — normal
return or an exception raised while invoking the external tool (a non-zero
tool exit is a normal return of `subprocess.run` without `check=True`) —
the scratch file created in the target directory is deleted and the final
filesystem is exactly the initial one, so no scratch file remains and no
other file is changed. The hypothesis says the scratch name chosen by
`tempfile.NamedTemporaryFile` was fresh, which that API guarantees. -/
theorem C8_scratch_always_deleted (fs : FS) (scratch : String)
    (uvResult : Option String) (python : Option String)
    (hfresh : FS.lookup fs scratch = none) :
    (new_notebook_with_inline_metadata fs scratch uvResult python).2 = fs := by
  cases uvResult with
  | none =>
    simp only [new_notebook_with_inline_metadata]
    rw [FS.remove_write, FS.remove_eq_self hfresh]
  | some stub =>
    simp only [new_notebook_with_inline_metadata]
    rw [FS.remove_write, FS.remove_write, FS.remove_eq_self hfresh]

/-- C8 witness: a concrete run of the constructor over a one-file directory
leaves the directory unchanged. -/
theorem C8_witness :
    (new_notebook_with_inline_metadata [("a.ipynb", .text "x")] "tmp.py" (some "stub") none).2
      = [("a.ipynb", FileContent.text "x")] :=
  C8_scratch_always_deleted [("a.ipynb", .text "x")] "tmp.py" (some "stub") none (by decide)

/-! Section: C5 — non-`.ipynb` extension: usage error, exit 1, nothing written -/

/-- C5: `init` invoked with an explicit path whose extension is not
`.ipynb` prints the usage message to stderr and terminates via
`sys.exit(1)` (`exitUsage`) before any notebook is built, leaving the
filesystem untouched: no file is created. -/
theorem C5_bad_extension_exits_without_writing (fs : FS) (scratch : String)
    (uvResult : Option String) (path : String) (python : Option String)
    (packages : List String) (addT : Notebook → List String → Notebook)
    (h : pathSuffix path ≠ ".ipynb") :
    init fs scratch uvResult (some path) python packages addT
      = ⟨fs, [.stderrLine extensionErrorMsg], .exitUsage⟩ := by
  simp [init, initResolved, h]

/-- C5 witness: `init foo.txt` exits with the usage error and creates no
file. -/
theorem C5_witness :
    init [] "tmp.py" (some "s") (some "foo.txt") none [] (fun nb _ => nb)
      = ⟨[], [.stderrLine extensionErrorMsg], .exitUsage⟩ :=
  C5_bad_extension_exits_without_writing [] "tmp.py" (some "s") "foo.txt" none []
    (fun nb _ => nb) (by decide)

/-! Section: C2 — the created notebook: one hidden code cell, stripped stub -/

/-- C2 (amended): `init` at a fresh `.ipynb` path writes at that path a
notebook containing exactly one cell — a hidden code cell — whose source is
the external tool's generated stub content with leading and trailing
whitespace stripped (the source does `f.read().strip()`), rather than the
stub verbatim. -/
theorem C2_single_hidden_stripped_cell (fs : FS) (scratch stub path : String)
    (python : Option String) (addT : Notebook → List String → Notebook)
    (hsuf : pathSuffix path = ".ipynb") (_hfree : FS.lookup fs path = none) :
    (init fs scratch (some stub) (some path) python [] addT).outcome = .done
    ∧ FS.lookup (init fs scratch (some stub) (some path) python [] addT).fs path
        = some (.notebook (new_notebook [code_cell (pyStrip stub) true])) := by
  refine ⟨?_, ?_⟩ <;>
    simp [init, initResolved, hsuf, new_notebook_with_inline_metadata, write_ipynb,
      FS.readText_write_text, FS.lookup_write_self]

/-- C2 witness: a concrete invocation at a fresh path `foo.ipynb`. -/
theorem C2_witness :
    (init [] "tmp.py" (some "x\n") (some "foo.ipynb") none [] (fun nb _ => nb)).outcome = .done
    ∧ FS.lookup (init [] "tmp.py" (some "x\n") (some "foo.ipynb") none [] (fun nb _ => nb)).fs
        "foo.ipynb"
        = some (.notebook (new_notebook [code_cell (pyStrip "x\n") true])) :=
  C2_single_hidden_stripped_cell [] "tmp.py" "x\n" "foo.ipynb" none (fun nb _ => nb)
    (by decide) rfl

/-- C2 counterexample: with the stub `"x\n"` (the tool's output ends in a
newline) the written cell's source is the stripped `"x"` and is not the
verbatim stub `"x\n"` — the claim's "captured verbatim (unmodified)" fails
on the code, which strips the captured content. -/
theorem C2_counterexample :
    FS.lookup (init [] "tmp.py" (some "x\n") (some "foo.ipynb") none []
        (fun nb _ => nb)).fs "foo.ipynb"
      = some (.notebook ⟨4, [⟨"code", "x", true⟩]⟩)
    ∧ ¬ (FS.lookup (init [] "tmp.py" (some "x\n") (some "foo.ipynb") none []
        (fun nb _ => nb)).fs "foo.ipynb"
      = some (.notebook ⟨4, [⟨"code", "x\n", true⟩]⟩)) := by
  decide

/-! Section: Untitled resolver lemmas -/

theorem resolver_eq_spec (fileExists : String → Bool) :
    get_first_non_conflicting_untitled_ipynb fileExists = resolverSpec fileExists := by
  unfold get_first_non_conflicting_untitled_ipynb resolverSpec untitledCandidates
  rw [List.find?_cons]
  cases hbase : fileExists "Untitled.ipynb" with
  | false => simp [hbase]
  | true =>
    simp only [hbase, Bool.not_true, Bool.false_eq_true, if_false]
    rw [List.find?_map]
    cases hfind : (List.range' 1 99).find? (fun i => !fileExists (untitledName i)) with
    | none =>
      have hfind2 : (List.range' 1 99).find? ((fun c => !fileExists c) ∘ untitledName)
          = none := hfind
      rw [hfind2]
      rfl
    | some i =>
      have hfind2 : (List.range' 1 99).find? ((fun c => !fileExists c) ∘ untitledName)
          = some i := hfind
      rw [hfind2]
      rfl

/-- The first element of a duplicate-free list outside the prefix of its
first `m` elements is the element at index `m`. -/
theorem find?_not_in_take {α : Type} [DecidableEq α] (l : List α) (m : Nat)
    (nd : l.Nodup) (h : m < l.length) :
    l.find? (fun c => !((l.take m).contains c)) = some (l.get ⟨m, h⟩) := by
  have h1 : (l.take m).find? (fun c => !((l.take m).contains c)) = none := by
    rw [List.find?_eq_none]
    intro x hx
    simp [hx]
  have hnotmem : l.get ⟨m, h⟩ ∉ l.take m := by
    intro hmem
    obtain ⟨j, hj, hje⟩ := List.mem_iff_getElem.mp hmem
    rw [List.getElem_take] at hje
    have hjm : j = m := (List.Nodup.getElem_inj_iff nd).mp hje
    rw [List.length_take] at hj
    omega
  have h2 : (l.drop m).find? (fun c => !((l.take m).contains c)) = some (l.get ⟨m, h⟩) := by
    rw [List.drop_eq_getElem_cons h]
    rw [List.find?_cons_of_pos _ (by simpa using hnotmem)]
    rfl
  calc l.find? (fun c => !((l.take m).contains c))
      = (l.take m ++ l.drop m).find? (fun c => !((l.take m).contains c)) := by
        rw [List.take_append_drop]
    _ = some (l.get ⟨m, h⟩) := by rw [List.find?_append, h1, h2]; rfl

theorem range'_take : ∀ (k n s : Nat), k ≤ n → (List.range' s n).take k = List.range' s k := by
  intro k
  induction k with
  | zero => intro n s _; simp
  | succ k ih =>
    intro n s hk
    cases n with
    | zero => omega
    | succ n =>
      rw [List.range'_succ, List.take_succ_cons, List.range'_succ]
      exact congrArg (List.cons s) (ih n (s + 1) (by omega))

theorem untitledCandidates_length : untitledCandidates.length = 100 := by
  simp [untitledCandidates]

set_option maxRecDepth 10000 in
theorem untitledCandidates_nodup : untitledCandidates.Nodup := by decide

theorem untitledDir_eq_take (k : Nat) (h : k ≤ 99) :
    untitledDir k = untitledCandidates.take (k + 1) := by
  unfold untitledDir untitledCandidates
  rw [List.take_succ_cons, ← List.map_take, range'_take k 99 1 h]

theorem untitledCandidates_get (k : Nat) (h : k + 1 < untitledCandidates.length) :
    untitledCandidates.get ⟨k + 1, h⟩ = untitledName (k + 1) := by
  simp only [untitledCandidates, List.get_eq_getElem, List.getElem_cons_succ,
    List.getElem_map, List.getElem_range']
  exact congrArg untitledName (by omega)

/-! Section: C1 — the resolver returns the first free candidate -/

/-- C1: the resolver returns the first name among `Untitled.ipynb`,
`Untitled1.ipynb`, …, `Untitled99.ipynb` — probed in that order — that does
not exist in the directory; in particular, over a directory containing
exactly `Untitled.ipynb` through `Untitled{k}.ipynb` with `k < 99` it
returns `Untitled{k+1}.ipynb`. -/
theorem C1_resolver_first_free :
    (∀ fileExists, get_first_non_conflicting_untitled_ipynb fileExists
        = untitledCandidates.find? (fun c => !fileExists c))
    ∧ ∀ k, k < 99 →
        get_first_non_conflicting_untitled_ipynb (fun s => (untitledDir k).contains s)
          = some (untitledName (k + 1)) := by
  constructor
  · exact fun fileExists => resolver_eq_spec fileExists
  · intro k hk
    rw [resolver_eq_spec]
    show untitledCandidates.find? (fun c => !((untitledDir k).contains c)) = _
    rw [untitledDir_eq_take k (by omega)]
    have hlen : k + 1 < untitledCandidates.length := by
      rw [untitledCandidates_length]; omega
    rw [find?_not_in_take untitledCandidates (k + 1) untitledCandidates_nodup hlen]
    exact congrArg some (untitledCandidates_get k hlen)

/-- C1 witness: a directory holding exactly `Untitled.ipynb`, `Untitled1.ipynb`
and `Untitled2.ipynb` resolves to `Untitled3.ipynb`. -/
theorem C1_witness :
    get_first_non_conflicting_untitled_ipynb (fun s => (untitledDir 2).contains s)
      = some (untitledName 3) :=
  C1_resolver_first_free.2 2 (by decide)

/-! Section: C7 — all 100 candidates taken: hard failure -/

/-- C7: when every one of the 100 candidate names exists in the directory,
the resolver raises (`none` models the `ValueError`) instead of returning a
path. -/
theorem C7_resolver_exhausted (fileExists : String → Bool)
    (h : ∀ c ∈ untitledCandidates, fileExists c = true) :
    get_first_non_conflicting_untitled_ipynb fileExists = none := by
  rw [resolver_eq_spec]
  show untitledCandidates.find? (fun c => !fileExists c) = none
  rw [List.find?_eq_none]
  intro x hx
  simp [h x hx]

/-- C7 witness: a directory where every name exists exhausts the resolver. -/
theorem C7_witness :
    get_first_non_conflicting_untitled_ipynb (fun _ => true) = none :=
  C7_resolver_exhausted (fun _ => true) (fun _ _ => rfl)

/-! Section: C10 — resolver outputs end in `.ipynb`; the usage error is
unreachable without an explicit path -/

set_option maxRecDepth 10000 in
theorem suffix_of_candidate : ∀ c ∈ untitledCandidates, pathSuffix c = ".ipynb" := by
  decide

theorem resolver_suffix {fileExists : String → Bool} {p : String}
    (h : get_first_non_conflicting_untitled_ipynb fileExists = some p) :
    pathSuffix p = ".ipynb" := by
  apply suffix_of_candidate
  rw [resolver_eq_spec] at h
  exact List.mem_of_find?_eq_some h

/-- C10: every path the resolver returns has the `.ipynb` suffix, and
consequently an `init` invocation with no explicit path can never take the
extension-validation failure branch (`sys.exit(1)`). -/
theorem C10_resolved_path_never_usage_error :
    (∀ fileExists p,
        get_first_non_conflicting_untitled_ipynb fileExists = some p →
        pathSuffix p = ".ipynb")
    ∧ ∀ fs scratch uvResult python packages addT,
        (init fs scratch uvResult none python packages addT).outcome ≠ .exitUsage := by
  constructor
  · exact fun _ _ h => resolver_suffix h
  · intro fs scratch uvResult python packages addT
    show (init fs scratch uvResult none python packages addT).outcome ≠ .exitUsage
    cases hres : get_first_non_conflicting_untitled_ipynb (fun n => (FS.lookup fs n).isSome) with
    | none => simp [init, hres]
    | some p =>
      have hsuf := resolver_suffix hres
      simp only [init, hres, initResolved, hsuf]
      cases hnb : new_notebook_with_inline_metadata fs scratch uvResult python with
      | mk r fs1 =>
        cases r <;> simp

/-- C10 witness: over the empty directory the resolver returns
`Untitled.ipynb`, whose suffix is `.ipynb`. -/
theorem C10_witness : pathSuffix "Untitled.ipynb" = ".ipynb" :=
  C10_resolved_path_never_usage_error.1 (fun _ => false) "Untitled.ipynb" (by decide)

/-! Section: C6 — order of the init steps -/

/-- C6 (amended): at the library level (`_init.init` called with a nonempty
package list) the steps happen in the order build-notebook, persist,
add-packages, confirmation — the confirmation is printed only after the add
completes. At the CLI level, however, `--with` packages are not forwarded
to `_init.init`; the CLI command calls the library `init` without packages
(which already prints the confirmation) and only then performs the
package-add itself, so for `init --with PKG` the confirmation precedes the
package-add. -/
theorem C6_step_order (fs : FS) (scratch stub : String) (path : String)
    (python : Option String) (packages : List String)
    (addT : Notebook → List String → Notebook)
    (hp : packages ≠ []) (hsuf : pathSuffix path = ".ipynb") :
    (init fs scratch (some stub) (some path) python packages addT).events
      = [.wroteNotebook path (new_notebook [code_cell (pyStrip stub) true]),
         .addedPackages (some path) packages, .printedConfirmation path]
    ∧ (cli_init fs scratch (some stub) (some path) python packages addT).events
      = [.wroteNotebook path (new_notebook [code_cell (pyStrip stub) true]),
         .printedConfirmation path, .addedPackages (some path) packages] := by
  constructor
  · simp [init, initResolved, hsuf, hp, new_notebook_with_inline_metadata,
      write_ipynb, add, FS.lookup_write_self, FS.readText_write_text]
  · simp [cli_init, init, initResolved, hsuf, hp, new_notebook_with_inline_metadata,
      write_ipynb, add, FS.lookup_write_self, FS.readText_write_text]

/-- C6 witness: a concrete invocation with one package. -/
theorem C6_witness :
    (init [] "tmp.py" (some "s") (some "a.ipynb") none ["requests"] (fun nb _ => nb)).events
      = [.wroteNotebook "a.ipynb" (new_notebook [code_cell (pyStrip "s") true]),
         .addedPackages (some "a.ipynb") ["requests"], .printedConfirmation "a.ipynb"]
    ∧ (cli_init [] "tmp.py" (some "s") (some "a.ipynb") none ["requests"] (fun nb _ => nb)).events
      = [.wroteNotebook "a.ipynb" (new_notebook [code_cell (pyStrip "s") true]),
         .printedConfirmation "a.ipynb", .addedPackages (some "a.ipynb") ["requests"]] :=
  C6_step_order [] "tmp.py" "s" "a.ipynb" none ["requests"] (fun nb _ => nb)
    (by decide) (by decide)

/-- C6 counterexample: for the CLI invocation `init a.ipynb --with requests`
the event trace has the confirmation print strictly before the package-add,
so the claim that the confirmation is printed only after the package-add
completes is false on the code. -/
theorem C6_counterexample :
    (cli_init [] "tmp.py" (some "s") (some "a.ipynb") none ["requests"]
        (fun nb _ => nb)).events
      = [.wroteNotebook "a.ipynb" ⟨4, [⟨"code", "s", true⟩]⟩,
         .printedConfirmation "a.ipynb", .addedPackages (some "a.ipynb") ["requests"]]
    ∧ confirmationAfterAddB ((cli_init [] "tmp.py" (some "s") (some "a.ipynb") none
        ["requests"] (fun nb _ => nb)).events) = false := by
  decide

/-! Section: C9 — CLI `init --with` and no FILE: `add` gets `None` -/

/-- C9: when the CLI `init` command runs with no FILE argument and a
nonempty `--with` list, the notebook is created at the resolved Untitled
path `p`, yet the subsequent `add` call receives `none` — the CLI layer
passes its own unresolved `path` variable instead of the path resolved
inside the library `init`. -/
theorem C9_add_gets_none (fs : FS) (scratch stub : String) (python : Option String)
    (with_args : List String) (addT : Notebook → List String → Notebook) (p : String)
    (hw : with_args ≠ [])
    (hres : get_first_non_conflicting_untitled_ipynb (fun n => (FS.lookup fs n).isSome)
      = some p) :
    (cli_init fs scratch (some stub) none python with_args addT).events
      = [.wroteNotebook p (new_notebook [code_cell (pyStrip stub) true]),
         .printedConfirmation p, .addedPackages none with_args]
    ∧ FS.lookup (cli_init fs scratch (some stub) none python with_args addT).fs p
      = some (.notebook (new_notebook [code_cell (pyStrip stub) true])) := by
  have hsuf := resolver_suffix hres
  constructor
  · simp [cli_init, init, hres, initResolved, hsuf, hw, new_notebook_with_inline_metadata,
      write_ipynb, add, FS.lookup_write_self, FS.readText_write_text]
  · simp [cli_init, init, hres, initResolved, hsuf, hw, new_notebook_with_inline_metadata,
      write_ipynb, add, FS.lookup_write_self, FS.readText_write_text]

/-- C9 witness: over the empty directory, `init --with requests` creates
`Untitled.ipynb` but invokes `add` with no path. -/
theorem C9_witness :
    (cli_init [] "tmp.py" (some "s") none none ["requests"] (fun nb _ => nb)).events
      = [.wroteNotebook "Untitled.ipynb" (new_notebook [code_cell (pyStrip "s") true]),
         .printedConfirmation "Untitled.ipynb", .addedPackages none ["requests"]]
    ∧ FS.lookup (cli_init [] "tmp.py" (some "s") none none ["requests"]
        (fun nb _ => nb)).fs "Untitled.ipynb"
      = some (.notebook (new_notebook [code_cell (pyStrip "s") true])) :=
  C9_add_gets_none [] "tmp.py" "s" none ["requests"] (fun nb _ => nb) "Untitled.ipynb"
    (by decide) (by decide)

/-! Section: C3 — the legacy-command rewrite -/

theorem upgradeGo_eq (rest : List String) : ∀ (prev1 prev2 : String) (env : Option String),
    pyStartsWith prev1 "--" = pyStartsWith prev2 "--" →
    upgradeGo prev1 rest env = (rewriteSpecTail prev2 rest, envSpecTail prev2 rest env) := by
  induction rest with
  | nil => intro prev1 prev2 env h; rfl
  | cons arg rest ih =>
    intro prev1 prev2 env h
    have hcond : legacyRewriteCond prev1 arg = legacyRewriteCond prev2 arg := by
      unfold legacyRewriteCond
      rw [h]
    cases hc : legacyRewriteCond prev2 arg with
    | true =>
      have harg : pyStartsWith arg "--" = false := by
        have hc2 := hc
        unfold legacyRewriteCond at hc2
        rcases Bool.and_eq_true_iff.mp hc2 with ⟨-, harg2⟩
        simpa using harg2
      have hrec := ih "run" arg (some arg) (by rw [harg]; decide)
      simp [upgradeGo, rewriteSpecTail, envSpecTail, hcond, hc, hrec]
    | false =>
      have hrec := ih arg arg env rfl
      simp [upgradeGo, rewriteSpecTail, envSpecTail, hcond, hc, hrec]

theorem rewriteSpecTail_dashes (rest : List String) : ∀ (prev : String) (i : Nat),
    pyStartsWith (rest.getD i "") "--" = true →
    (rewriteSpecTail prev rest).getD i "" = rest.getD i "" := by
  induction rest with
  | nil => intro prev i h; rfl
  | cons arg rest ih =>
    intro prev i h
    cases i with
    | zero =>
      have hc : legacyRewriteCond prev arg = false := by
        unfold legacyRewriteCond
        simp only [List.getD_cons_zero] at h
        simp [h]
      simp [rewriteSpecTail, hc]
    | succ i =>
      have h2 : pyStartsWith (rest.getD i "") "--" = true := by simpa using h
      simpa [rewriteSpecTail] using ih arg i h2

/-- C3 (amended): the rewrite replaces an argument by `run` if and only if
the argument STARTS WITH one of `lab`, `notebook`, `nbclassic` (a prefix
match, not an equality test), it is not the first argument, and the
argument originally before it does not start with `--` (no rewritten
argument starts with `--`, so the live-list check agrees with the original
argv); `JUV_JUPYTER` receives the original text of the last rewritten
argument; and no argument that itself starts with `--` is ever altered.
`upgradeSpec` states exactly this positionwise description over the
original argv. -/
theorem C3_legacy_rewrite :
    (∀ args, upgrade_legacy_jupyter_command args = upgradeSpec args)
    ∧ ∀ args i, pyStartsWith (args.getD i "") "--" = true →
        (upgrade_legacy_jupyter_command args).1.getD i "" = args.getD i "" := by
  have main : ∀ args, upgrade_legacy_jupyter_command args = upgradeSpec args := by
    intro args
    cases args with
    | nil => rfl
    | cons a0 rest =>
      simp only [upgrade_legacy_jupyter_command, upgradeSpec]
      rw [upgradeGo_eq rest a0 a0 none rfl]
  refine ⟨main, ?_⟩
  intro args i h
  rw [main args]
  cases args with
  | nil => rfl
  | cons a0 rest =>
    cases i with
    | zero => rfl
    | succ i =>
      have h2 : pyStartsWith (rest.getD i "") "--" = true := by simpa using h
      simpa [upgradeSpec] using rewriteSpecTail_dashes rest a0 i h2

/-- C3 witness: `juv lab …` is rewritten to `juv run …` with `JUV_JUPYTER`
set, and a `--`-prefixed argument shields the one after it. -/
theorem C3_witness :
    upgrade_legacy_jupyter_command ["juv", "lab", "--with", "numpy"]
      = upgradeSpec ["juv", "lab", "--with", "numpy"]
    ∧ (upgrade_legacy_jupyter_command ["juv", "lab", "--with", "numpy"]).1.getD 2 ""
      = ["juv", "lab", "--with", "numpy"].getD 2 "" :=
  ⟨C3_legacy_rewrite.1 ["juv", "lab", "--with", "numpy"],
   C3_legacy_rewrite.2 ["juv", "lab", "--with", "numpy"] 2 (by decide)⟩

/-- C3 counterexample: the claim says an argument is rewritten iff it IS
one of the three deprecated names (plus the position conditions); but argv
`["juv", "laboratory"]` has its second argument rewritten to `run` even
though `laboratory` is none of `lab`, `notebook`, `nbclassic` — the code
tests `startswith`, a prefix match. -/
theorem C3_counterexample :
    ¬ ∀ (args : List String) (i : Nat), i < args.length →
        (rewrittenAt args i ↔
          args.getD i "" ∈ deprecatedNames ∧ i ≠ 0 ∧
            ¬ pyStartsWith (args.getD (i - 1) "") "--" = true) := by
  intro h
  have h2 := (h ["juv", "laboratory"] 1 (by decide)).mp (by decide)
  exact absurd h2.1 (by decide)

/-! Section: C4 — the uv-availability check is never invoked by `main` -/

/-- C4: `assert_uv_available` does behave as the claim describes when
called — with `uv` absent it prints the three remediation lines to stderr
and exits with status 1 — but `main` consists of exactly the legacy-rewrite
call followed by the CLI dispatch and never invokes the check, so no
command invocation detects the missing tool at entry. -/
theorem C4_uv_check_never_called :
    TopCall.uvCheck ∉ mainCalls
    ∧ assert_uv_available false = (none, uvErrorLines)
    ∧ assert_uv_available true = (some (), []) :=
  ⟨by decide, rfl, rfl⟩

end Juv
